import Mathlib

/-!
Verification of the gossip `SyncManager` (package `discovery`,
`sync_manager.go`): the event loop `syncerHandler`, the registry of
active and inactive `GossipSyncer`s, and the bootstrap of the initial
historical sync.

The per-peer `GossipSyncer` is an external collaborator: only its peer
key and sync type are visible to the manager, while its internal sync
state (`chansSynced` or not) and the outcomes of its fallible calls
(`ProcessSyncTransition`, `historicalSync`) are supplied per event as
oracles.  A Go `range` over a map visits entries in an arbitrary order;
each event therefore also carries an explicit iteration order, realised
by `reorder`.
-/

namespace SyncMgr

/-- Peer identity (`route.Vertex`, a 33-byte public key) modelled as an
opaque natural number. -/
abbrev Vertex := Nat

/-- The sync type of a gossip syncer. -/
inductive SyncType where
  | ActiveSync
  | PassiveSync
  deriving DecidableEq, Repr

/-- The manager-visible part of a `GossipSyncer`: its peer key
(`cfg.peerPub`) and current sync type. -/
structure GossipSyncer where
  peerPub : Vertex
  syncType : SyncType
  deriving DecidableEq, Repr

/-- Go map lookup `m[v]` on a registry list keyed by `peerPub`. -/
def lookupSyncer : List GossipSyncer → Vertex → Option GossipSyncer
  | [], _ => none
  | s :: rest, v => if s.peerPub = v then some s else lookupSyncer rest v

/-- Go map assignment `m[s.cfg.peerPub] = s`: replace the entry holding
the key, else append. -/
def insertSyncer : List GossipSyncer → GossipSyncer → List GossipSyncer
  | [], s => [s]
  | t :: rest, s =>
    if t.peerPub = s.peerPub then s :: rest else t :: insertSyncer rest s

/-- Go `delete(m, v)`. -/
def eraseSyncer : List GossipSyncer → Vertex → List GossipSyncer
  | [], _ => []
  | s :: rest, v =>
    if s.peerPub = v then eraseSyncer rest v else s :: eraseSyncer rest v

/-- The key set of a registry map. -/
def keys (l : List GossipSyncer) : List Vertex := l.map (fun s => s.peerPub)

/-- The state maintained by the `syncerHandler` event loop: the two
registry maps of the `SyncManager` plus the loop-local bootstrap
variables.  `initialHistoricalSyncer` keeps only the syncer's peer key
(the loop only ever reads `initialHistoricalSyncer.cfg.peerPub`); the
`initialHistoricalSyncSignal` channel is non-nil exactly when
`initialHistoricalSyncer` is, so it is not tracked separately. -/
structure ManagerState where
  activeSyncers : List GossipSyncer
  inactiveSyncers : List GossipSyncer
  attemptInitialHistoricalSync : Bool
  initialHistoricalSyncCompleted : Bool
  initialHistoricalSyncer : Option Vertex
  deriving DecidableEq, Repr

/-- `SyncManager.gossipSyncer`: look the peer up in `inactiveSyncers`
first, then in `activeSyncers`. -/
def gossipSyncer (ms : ManagerState) (peer : Vertex) : Option GossipSyncer :=
  match lookupSyncer ms.inactiveSyncers peer with
  | some s => some s
  | none => lookupSyncer ms.activeSyncers peer

/-- `SyncManager.gossipSyncers`: the union of both maps, built by
inserting the inactive entries first and then the active ones; with
disjoint key sets this is the concatenation. -/
def gossipSyncers (ms : ManagerState) : List GossipSyncer :=
  ms.inactiveSyncers ++ ms.activeSyncers

/-- One iteration order of a Go `range` over a map: extract the entries
whose keys appear in `ord`, in that order, and leave the rest behind.
For a key-distinct map this is a permutation of the entry list, and
every order the runtime may choose is `reorder l ord` for some `ord`. -/
def reorder : List GossipSyncer → List Vertex → List GossipSyncer
  | l, [] => l
  | l, v :: vs =>
    match lookupSyncer l v with
    | some s => s :: reorder (eraseSyncer l v) vs
    | none => reorder l vs

/-- `chooseRandomSyncer`: walk the (re-ordered) entries, skip any syncer
not in the `chansSynced` state (oracle `st`), and return the first whose
action succeeds.  `action = none` means no action is attempted;
`action = some ok` means the enclosed fallible call succeeds exactly on
the syncers `ok` approves of (a failed action does not mutate anything
and the candidate is skipped). -/
def chooseRandomSyncer (st : Vertex → Bool) (action : Option (Vertex → Bool)) :
    List GossipSyncer → Option GossipSyncer
  | [] => none
  | s :: rest =>
    if st s.peerPub then
      match action with
      | none => some s
      | some ok =>
        if ok s.peerPub then some s else chooseRandomSyncer st action rest
    else chooseRandomSyncer st action rest

/-- `transitionActiveSyncer`: run `s.ProcessSyncTransition(PassiveSync)`
(outcome given by the oracle `ok`); on error return with the maps
untouched, on success move `s` from `activeSyncers` to
`inactiveSyncers`.  The second component is `true` iff an error was
returned. -/
def transitionActiveSyncer (ms : ManagerState) (s : GossipSyncer) (ok : Bool) :
    ManagerState × Bool :=
  if ok then
    ({ ms with
        activeSyncers := eraseSyncer ms.activeSyncers s.peerPub,
        inactiveSyncers :=
          insertSyncer ms.inactiveSyncers { s with syncType := SyncType.PassiveSync } },
      false)
  else (ms, true)

/-- `transitionPassiveSyncer`: run `s.ProcessSyncTransition(ActiveSync)`;
on error return with the maps untouched, on success move `s` from
`inactiveSyncers` to `activeSyncers`. -/
def transitionPassiveSyncer (ms : ManagerState) (s : GossipSyncer) (ok : Bool) :
    ManagerState × Bool :=
  if ok then
    ({ ms with
        inactiveSyncers := eraseSyncer ms.inactiveSyncers s.peerPub,
        activeSyncers :=
          insertSyncer ms.activeSyncers { s with syncType := SyncType.ActiveSync } },
      false)
  else (ms, true)

/-- Environment choices for a register-peer event: the outcome of the
initial `historicalSync()` attempt on the fresh syncer. -/
structure RegOracle where
  histOk : Bool

/-- Environment choices for a deregister-peer event: iteration order,
sync states and `ProcessSyncTransition(ActiveSync)` outcomes for the
replacement promotion, and the same for the `forceHistoricalSync`
replacement search. -/
structure DeregOracle where
  ordPromote : List Vertex
  stPromote : Vertex → Bool
  okPromote : Vertex → Bool
  ordHist : List Vertex
  stHist : Vertex → Bool
  okHist : Vertex → Bool

/-- Environment choices for the initial-sync-done event, indexed by the
round of the promotion loop. -/
structure DoneOracle where
  ord : Nat → List Vertex
  st : Nat → Vertex → Bool
  ok : Nat → Vertex → Bool

/-- Environment choices for a rotation tick: candidate selection for the
active and the inactive side, and the outcomes of the two sync-type
transitions. -/
structure RotOracle where
  ordA : List Vertex
  stA : Vertex → Bool
  ordB : List Vertex
  stB : Vertex → Bool
  okA : Bool
  okB : Bool

/-- Environment choices for a historical-sync tick. -/
structure HistOracle where
  ord : List Vertex
  st : Vertex → Bool
  ok : Vertex → Bool

/-- The events serviced by the `syncerHandler` select loop, each
carrying the environment's choices for that iteration. -/
inductive Event where
  | register (peer : Vertex) (o : RegOracle)
  | deregister (peer : Vertex) (o : DeregOracle)
  | initialSyncDone (o : DoneOracle)
  | rotateTick (o : RotOracle)
  | histTick (o : HistOracle)

/-- Externally observable actions of one loop iteration: which syncers
got `Start` and `Stop` issued, and whether the request's done channel
was closed (which is what lets `InitSyncState` and `PruneSyncState`
return normally). -/
structure StepLog where
  starts : List Vertex
  stops : List Vertex
  doneSignalled : Bool
  deriving DecidableEq, Repr

/-- `createGossipSyncer`: a fresh syncer starts in sync type
`PassiveSync` (and in sync state `chansSynced`, which belongs to the
external syncer machine). -/
def createGossipSyncer (peer : Vertex) : GossipSyncer :=
  { peerPub := peer, syncType := SyncType.PassiveSync }

/-- `forceHistoricalSync`: sample the union of both maps and return the
first `chansSynced` syncer whose `historicalSync()` call succeeds.  The
registry is only read, never mutated. -/
def forceHistoricalSync (ms : ManagerState) (ord : List Vertex)
    (st ok : Vertex → Bool) : Option GossipSyncer :=
  chooseRandomSyncer st (some ok) (reorder (gossipSyncers ms) ord)

/-- `removeGossipSyncer`: drop the disconnected peer's syncer from
whichever map holds it and stop it; when it was active, promote a
random eligible inactive syncer in its place.  Returns the new registry
together with the peers whose syncers got `Stop` issued.  When the
promotion candidate search returns a syncer, its
`ProcessSyncTransition(ActiveSync)` call has already succeeded (oracle
`okPromote`), so the transition effect is applied with a successful
outcome. -/
def removeGossipSyncer (ms : ManagerState) (o : DeregOracle) (peer : Vertex) :
    ManagerState × List Vertex :=
  match gossipSyncer ms peer with
  | none => (ms, [])
  | some _ =>
    match lookupSyncer ms.inactiveSyncers peer with
    | some _ =>
      ({ ms with inactiveSyncers := eraseSyncer ms.inactiveSyncers peer }, [peer])
    | none =>
      let ms1 := { ms with activeSyncers := eraseSyncer ms.activeSyncers peer }
      match chooseRandomSyncer o.stPromote (some o.okPromote)
          (reorder ms1.inactiveSyncers o.ordPromote) with
      | none => (ms1, [peer])
      | some b => ((transitionPassiveSyncer ms1 b true).1, [peer])

/-- `rotateActiveSyncerCandidate`: pick an eligible active syncer and an
eligible inactive candidate; if either is absent, do nothing.  Move the
active one to passive first; if that fails, abort without touching the
candidate; otherwise move the candidate to active. -/
def rotateActiveSyncerCandidate (ms : ManagerState) (o : RotOracle) : ManagerState :=
  match chooseRandomSyncer o.stA none (reorder ms.activeSyncers o.ordA) with
  | none => ms
  | some activeSyncer =>
    match chooseRandomSyncer o.stB none (reorder ms.inactiveSyncers o.ordB) with
    | none => ms
    | some candidate =>
      let r1 := transitionActiveSyncer ms activeSyncer o.okA
      if r1.2 then r1.1
      else (transitionPassiveSyncer r1.1 candidate o.okB).1

/-- One round of the promotion loop:
`chooseRandomSyncer(m.inactiveSyncers, m.transitionPassiveSyncer)`.
When the search returns a syncer, its
`ProcessSyncTransition(ActiveSync)` call has already succeeded, so the
transition effect is applied with a successful outcome; when it returns
nothing the registry is untouched (failed transitions do not mutate). -/
def promoteOne (o : DoneOracle) (i : Nat) (ms : ManagerState) : ManagerState :=
  match chooseRandomSyncer (o.st i) (some (o.ok i))
      (reorder ms.inactiveSyncers (o.ord i)) with
  | none => ms
  | some b => (transitionPassiveSyncer ms b true).1

/-- The promotion loop run once the initial historical sync completes:
`numActiveLeft` rounds, round `i` drawing its environment choices from
index `i`. -/
def promoteLoop (o : DoneOracle) : Nat → Nat → ManagerState → ManagerState
  | 0, _, ms => ms
  | n + 1, i, ms => promoteLoop o n (i + 1) (promoteOne o i ms)

/-- The classification switch of the register-peer case: with the
active map full, or the initial historical sync not yet completed, the
new syncer is set to `PassiveSync` and inserted into `inactiveSyncers`;
otherwise it is set to `ActiveSync` and inserted into
`activeSyncers`. -/
def classifyNewSyncer (K : Nat) (ms : ManagerState) (s : GossipSyncer) :
    ManagerState :=
  if ms.activeSyncers.length ≥ K then
    { ms with inactiveSyncers :=
        insertSyncer ms.inactiveSyncers { s with syncType := SyncType.PassiveSync } }
  else if ! ms.initialHistoricalSyncCompleted then
    { ms with inactiveSyncers :=
        insertSyncer ms.inactiveSyncers { s with syncType := SyncType.PassiveSync } }
  else
    { ms with activeSyncers :=
        insertSyncer ms.activeSyncers { s with syncType := SyncType.ActiveSync } }

/-- The tail of the register-peer case: when an initial historical sync
is still pending, attempt one on the fresh syncer (`histOk` is the
outcome of `s.historicalSync()`); on success remember the syncer and
stop attempting, on failure just continue. -/
def attemptHistSync (ms1 : ManagerState) (peer : Vertex) (histOk : Bool) :
    ManagerState :=
  if ! ms1.attemptInitialHistoricalSync then ms1
  else if ! histOk then ms1
  else
    { ms1 with
        attemptInitialHistoricalSync := false,
        initialHistoricalSyncer := some peer }

/-- The tail of the deregister-peer case: when the departed peer was
the initial-historical syncer, search for a replacement with
`forceHistoricalSync`; when none is found, merely flag
`attemptInitialHistoricalSync` (the stale `initialHistoricalSyncer`
reference is not cleared); when one is found, point
`initialHistoricalSyncer` at it (without touching
`attemptInitialHistoricalSync`). -/
def replaceInitialHistSyncer (ms1 : ManagerState) (peer : Vertex)
    (o : DeregOracle) : ManagerState :=
  match ms1.initialHistoricalSyncer with
  | none => ms1
  | some v =>
    if peer ≠ v then ms1
    else
      match forceHistoricalSync ms1 o.ordHist o.stHist o.okHist with
      | none => { ms1 with attemptInitialHistoricalSync := true }
      | some s2 => { ms1 with initialHistoricalSyncer := some s2.peerPub }

/-- One iteration of the `syncerHandler` event loop. -/
def step (K : Nat) (ms : ManagerState) : Event → ManagerState × StepLog
  | Event.register peer o =>
    match gossipSyncer ms peer with
    | some _ => (ms, { starts := [], stops := [], doneSignalled := true })
    | none =>
      let s := createGossipSyncer peer
      (attemptHistSync (classifyNewSyncer K ms s) peer o.histOk,
        { starts := [peer], stops := [], doneSignalled := true })
  | Event.deregister peer o =>
    let r := removeGossipSyncer ms o peer
    (replaceInitialHistSyncer r.1 peer o,
      { starts := [], stops := r.2, doneSignalled := true })
  | Event.initialSyncDone o =>
    let log : StepLog := { starts := [], stops := [], doneSignalled := false }
    match ms.initialHistoricalSyncer with
    | none => (ms, log)
    | some _ =>
      let ms1 := { ms with
        initialHistoricalSyncer := none,
        initialHistoricalSyncCompleted := true }
      (promoteLoop o (K - ms1.activeSyncers.length) 0 ms1, log)
  | Event.rotateTick o =>
    (rotateActiveSyncerCandidate ms o,
      { starts := [], stops := [], doneSignalled := false })
  | Event.histTick o =>
    let _s := forceHistoricalSync ms o.ord o.st o.ok
    (ms, { starts := [], stops := [], doneSignalled := false })

/-- The loop's state when `syncerHandler` starts. -/
def initialState : ManagerState :=
  { activeSyncers := []
    inactiveSyncers := []
    attemptInitialHistoricalSync := true
    initialHistoricalSyncCompleted := false
    initialHistoricalSyncer := none }

/-- The state after the loop has serviced a sequence of events. -/
def run (K : Nat) (evs : List Event) : ManagerState :=
  evs.foldl (fun ms e => (step K ms e).1) initialState

/-- Key-distinctness of a registry map (a Go map holds each key at most
once). -/
def NodupKeys (l : List GossipSyncer) : Prop := (keys l).Nodup

/-- The structural registry invariant: both maps key-distinct, their
key sets disjoint. -/
def RegInv (ms : ManagerState) : Prop :=
  NodupKeys ms.activeSyncers ∧ NodupKeys ms.inactiveSyncers ∧
    ∀ v ∈ keys ms.activeSyncers, v ∉ keys ms.inactiveSyncers

/-- The full registry invariant: structure plus the `NumActiveSyncers`
bound on the active map. -/
def Inv (K : Nat) (ms : ManagerState) : Prop :=
  RegInv ms ∧ ms.activeSyncers.length ≤ K

instance (l : List GossipSyncer) : Decidable (NodupKeys l) := by
  unfold NodupKeys
  infer_instance

instance (ms : ManagerState) : Decidable (RegInv ms) := by
  unfold RegInv
  infer_instance

/-! ### Lemmas about the registry map operations -/

theorem keys_nil : keys ([] : List GossipSyncer) = [] := rfl

theorem keys_cons {t : GossipSyncer} {rest : List GossipSyncer} :
    keys (t :: rest) = t.peerPub :: keys rest := rfl

theorem mem_keys {l : List GossipSyncer} {v : Vertex} :
    v ∈ keys l ↔ ∃ s ∈ l, s.peerPub = v := by
  simp [keys]

theorem mem_keys_cons {t : GossipSyncer} {rest : List GossipSyncer} {w : Vertex} :
    w ∈ keys (t :: rest) ↔ w = t.peerPub ∨ w ∈ keys rest := by
  rw [keys_cons, List.mem_cons]

theorem mem_keys_of_mem {l : List GossipSyncer} {s : GossipSyncer}
    (h : s ∈ l) : s.peerPub ∈ keys l :=
  mem_keys.mpr ⟨s, h, rfl⟩

theorem nodupKeys_nil : NodupKeys [] := List.nodup_nil

theorem nodupKeys_cons {t : GossipSyncer} {rest : List GossipSyncer} :
    NodupKeys (t :: rest) ↔ t.peerPub ∉ keys rest ∧ NodupKeys rest := by
  rw [NodupKeys, keys_cons, List.nodup_cons]
  exact Iff.rfl

theorem lookupSyncer_some {l : List GossipSyncer} {v : Vertex} {s : GossipSyncer}
    (h : lookupSyncer l v = some s) : s ∈ l ∧ s.peerPub = v := by
  induction l with
  | nil => simp [lookupSyncer] at h
  | cons t rest ih =>
    rw [lookupSyncer] at h
    by_cases ht : t.peerPub = v
    · rw [if_pos ht] at h
      injection h with h
      subst h
      exact ⟨List.mem_cons_self _ _, ht⟩
    · rw [if_neg ht] at h
      rcases ih h with ⟨h1, h2⟩
      exact ⟨List.mem_cons_of_mem _ h1, h2⟩

theorem lookupSyncer_eq_none {l : List GossipSyncer} {v : Vertex} :
    lookupSyncer l v = none ↔ v ∉ keys l := by
  induction l with
  | nil => simp [lookupSyncer, keys_nil]
  | cons t rest ih =>
    rw [lookupSyncer]
    by_cases ht : t.peerPub = v
    · simp [ht, mem_keys_cons]
    · simp [ht, ih, mem_keys_cons, Ne.symm ht]

theorem mem_keys_of_lookup_some {l : List GossipSyncer} {v : Vertex}
    {s : GossipSyncer} (h : lookupSyncer l v = some s) : v ∈ keys l := by
  rcases lookupSyncer_some h with ⟨h1, h2⟩
  exact h2 ▸ mem_keys_of_mem h1

theorem mem_eraseSyncer {l : List GossipSyncer} {v : Vertex} {s : GossipSyncer}
    (h : s ∈ eraseSyncer l v) : s ∈ l := by
  induction l with
  | nil => simp [eraseSyncer] at h
  | cons t rest ih =>
    rw [eraseSyncer] at h
    by_cases ht : t.peerPub = v
    · rw [if_pos ht] at h
      exact List.mem_cons_of_mem _ (ih h)
    · rw [if_neg ht] at h
      rcases List.mem_cons.mp h with h1 | h1
      · exact h1 ▸ List.mem_cons_self _ _
      · exact List.mem_cons_of_mem _ (ih h1)

theorem mem_keys_eraseSyncer {l : List GossipSyncer} {v w : Vertex} :
    w ∈ keys (eraseSyncer l v) ↔ w ∈ keys l ∧ w ≠ v := by
  induction l with
  | nil => simp [eraseSyncer, keys_nil]
  | cons t rest ih =>
    rw [eraseSyncer]
    by_cases ht : t.peerPub = v
    · rw [if_pos ht, ih, mem_keys_cons]
      subst ht
      constructor
      · rintro ⟨h1, h2⟩
        exact ⟨Or.inr h1, h2⟩
      · rintro ⟨h1 | h2, h3⟩
        · exact absurd h1 h3
        · exact ⟨h2, h3⟩
    · rw [if_neg ht, mem_keys_cons, mem_keys_cons, ih]
      constructor
      · rintro (rfl | ⟨h1, h2⟩)
        · exact ⟨Or.inl rfl, ht⟩
        · exact ⟨Or.inr h1, h2⟩
      · rintro ⟨h1 | h2, h3⟩
        · exact Or.inl h1
        · exact Or.inr ⟨h2, h3⟩

theorem eraseSyncer_of_not_mem {l : List GossipSyncer} {v : Vertex}
    (h : v ∉ keys l) : eraseSyncer l v = l := by
  induction l with
  | nil => rfl
  | cons t rest ih =>
    rw [eraseSyncer]
    have h1 : ¬ t.peerPub = v := fun hv => h (mem_keys_cons.mpr (Or.inl hv.symm))
    rw [if_neg h1, ih (fun hm => h (mem_keys_cons.mpr (Or.inr hm)))]

theorem nodupKeys_eraseSyncer {l : List GossipSyncer} {v : Vertex}
    (h : NodupKeys l) : NodupKeys (eraseSyncer l v) := by
  induction l with
  | nil => exact h
  | cons t rest ih =>
    rcases nodupKeys_cons.mp h with ⟨h1, h2⟩
    rw [eraseSyncer]
    by_cases ht : t.peerPub = v
    · rw [if_pos ht]
      exact ih h2
    · rw [if_neg ht]
      refine nodupKeys_cons.mpr ⟨?_, ih h2⟩
      intro hm
      exact h1 (mem_keys_eraseSyncer.mp hm).1

theorem length_eraseSyncer_le {l : List GossipSyncer} {v : Vertex} :
    (eraseSyncer l v).length ≤ l.length := by
  induction l with
  | nil => simp [eraseSyncer]
  | cons t rest ih =>
    rw [eraseSyncer]
    by_cases ht : t.peerPub = v
    · rw [if_pos ht]
      exact Nat.le_succ_of_le ih
    · rw [if_neg ht]
      simpa using Nat.succ_le_succ ih

theorem length_eraseSyncer_of_mem {l : List GossipSyncer} {v : Vertex}
    (hn : NodupKeys l) (hv : v ∈ keys l) :
    (eraseSyncer l v).length + 1 = l.length := by
  induction l with
  | nil => simp [keys_nil] at hv
  | cons t rest ih =>
    rcases nodupKeys_cons.mp hn with ⟨h1, h2⟩
    rw [eraseSyncer]
    by_cases ht : t.peerPub = v
    · rw [if_pos ht, eraseSyncer_of_not_mem (ht ▸ h1)]
      simp
    · rw [if_neg ht]
      rcases mem_keys_cons.mp hv with h3 | h3
      · exact absurd h3.symm ht
      · have h4 := ih h2 h3
        simp only [List.length_cons]
        omega

theorem mem_keys_insertSyncer {l : List GossipSyncer} {s : GossipSyncer}
    {w : Vertex} :
    w ∈ keys (insertSyncer l s) ↔ w ∈ keys l ∨ w = s.peerPub := by
  induction l with
  | nil => simp [insertSyncer, keys_cons, keys_nil]
  | cons t rest ih =>
    rw [insertSyncer]
    by_cases ht : t.peerPub = s.peerPub
    · rw [if_pos ht, mem_keys_cons, mem_keys_cons, ht]
      tauto
    · rw [if_neg ht, mem_keys_cons, mem_keys_cons, ih]
      tauto

theorem nodupKeys_insertSyncer {l : List GossipSyncer} {s : GossipSyncer}
    (h : NodupKeys l) : NodupKeys (insertSyncer l s) := by
  induction l with
  | nil =>
    rw [insertSyncer]
    exact nodupKeys_cons.mpr ⟨by simp [keys_nil], nodupKeys_nil⟩
  | cons t rest ih =>
    rcases nodupKeys_cons.mp h with ⟨h1, h2⟩
    rw [insertSyncer]
    by_cases ht : t.peerPub = s.peerPub
    · rw [if_pos ht]
      exact nodupKeys_cons.mpr ⟨ht ▸ h1, h2⟩
    · rw [if_neg ht]
      refine nodupKeys_cons.mpr ⟨?_, ih h2⟩
      intro hm
      rcases mem_keys_insertSyncer.mp hm with hm1 | hm1
      · exact h1 hm1
      · exact ht hm1

theorem length_insertSyncer_of_mem {l : List GossipSyncer} {s : GossipSyncer}
    (h : s.peerPub ∈ keys l) : (insertSyncer l s).length = l.length := by
  induction l with
  | nil => simp [keys_nil] at h
  | cons t rest ih =>
    rw [insertSyncer]
    by_cases ht : t.peerPub = s.peerPub
    · rw [if_pos ht]
      simp
    · rw [if_neg ht]
      rcases mem_keys_cons.mp h with h1 | h1
      · exact absurd h1.symm ht
      · simp [ih h1]

theorem length_insertSyncer_of_not_mem {l : List GossipSyncer} {s : GossipSyncer}
    (h : s.peerPub ∉ keys l) : (insertSyncer l s).length = l.length + 1 := by
  induction l with
  | nil => simp [insertSyncer]
  | cons t rest ih =>
    rw [insertSyncer]
    have ht : ¬ t.peerPub = s.peerPub :=
      fun hv => h (mem_keys_cons.mpr (Or.inl hv.symm))
    rw [if_neg ht]
    simp [ih (fun hm => h (mem_keys_cons.mpr (Or.inr hm)))]

theorem length_insertSyncer_le {l : List GossipSyncer} {s : GossipSyncer} :
    (insertSyncer l s).length ≤ l.length + 1 := by
  by_cases h : s.peerPub ∈ keys l
  · rw [length_insertSyncer_of_mem h]
    exact Nat.le_succ _
  · rw [length_insertSyncer_of_not_mem h]

theorem lookupSyncer_insertSyncer_self {l : List GossipSyncer}
    {s : GossipSyncer} :
    lookupSyncer (insertSyncer l s) s.peerPub = some s := by
  induction l with
  | nil => simp [insertSyncer, lookupSyncer]
  | cons t rest ih =>
    rw [insertSyncer]
    by_cases ht : t.peerPub = s.peerPub
    · rw [if_pos ht, lookupSyncer, if_pos rfl]
    · rw [if_neg ht, lookupSyncer, if_neg ht, ih]

theorem lookupSyncer_eraseSyncer_ne {l : List GossipSyncer} {w v : Vertex}
    (h : v ≠ w) :
    lookupSyncer (eraseSyncer l w) v = lookupSyncer l v := by
  induction l with
  | nil => rfl
  | cons t rest ih =>
    rw [eraseSyncer]
    by_cases ht : t.peerPub = w
    · rw [if_pos ht, ih]
      rw [lookupSyncer, if_neg (fun hv => h (hv.symm.trans ht))]
    · rw [if_neg ht]
      rw [lookupSyncer, lookupSyncer]
      by_cases htv : t.peerPub = v
      · rw [if_pos htv, if_pos htv]
      · rw [if_neg htv, if_neg htv, ih]

theorem lookupSyncer_insertSyncer_ne {l : List GossipSyncer}
    {s : GossipSyncer} {v : Vertex} (h : v ≠ s.peerPub) :
    lookupSyncer (insertSyncer l s) v = lookupSyncer l v := by
  induction l with
  | nil =>
    show (if s.peerPub = v then some s else lookupSyncer [] v) =
      lookupSyncer [] v
    rw [if_neg (fun hv => h hv.symm)]
  | cons t rest ih =>
    rw [insertSyncer]
    by_cases ht : t.peerPub = s.peerPub
    · rw [if_pos ht]
      rw [lookupSyncer, lookupSyncer]
      rw [if_neg (fun hv => h hv.symm),
        if_neg (fun hv => h ((ht.symm.trans hv).symm))]
    · rw [if_neg ht]
      rw [lookupSyncer, lookupSyncer]
      by_cases htv : t.peerPub = v
      · rw [if_pos htv, if_pos htv]
      · rw [if_neg htv, if_neg htv, ih]

/-! ### Lemmas about `chooseRandomSyncer` and `reorder` -/

theorem chooseRandomSyncer_some {st : Vertex → Bool}
    {action : Option (Vertex → Bool)} {l : List GossipSyncer} {s : GossipSyncer}
    (h : chooseRandomSyncer st action l = some s) :
    s ∈ l ∧ st s.peerPub = true := by
  induction l with
  | nil => simp [chooseRandomSyncer] at h
  | cons t rest ih =>
    cases action with
    | none =>
      rw [chooseRandomSyncer] at h
      by_cases hst : st t.peerPub
      · rw [if_pos hst] at h
        injection h with h
        subst h
        exact ⟨List.mem_cons_self _ _, hst⟩
      · rw [if_neg hst] at h
        rcases ih h with ⟨h1, h2⟩
        exact ⟨List.mem_cons_of_mem _ h1, h2⟩
    | some ok =>
      rw [chooseRandomSyncer] at h
      by_cases hst : st t.peerPub
      · rw [if_pos hst] at h
        by_cases hok : ok t.peerPub
        · rw [if_pos hok] at h
          injection h with h
          subst h
          exact ⟨List.mem_cons_self _ _, hst⟩
        · rw [if_neg hok] at h
          rcases ih h with ⟨h1, h2⟩
          exact ⟨List.mem_cons_of_mem _ h1, h2⟩
      · rw [if_neg hst] at h
        rcases ih h with ⟨h1, h2⟩
        exact ⟨List.mem_cons_of_mem _ h1, h2⟩

theorem chooseRandomSyncer_none_iff {st : Vertex → Bool}
    {l : List GossipSyncer} :
    chooseRandomSyncer st none l = none ↔ ∀ s ∈ l, st s.peerPub = false := by
  induction l with
  | nil => simp [chooseRandomSyncer]
  | cons t rest ih =>
    rw [chooseRandomSyncer]
    by_cases hst : st t.peerPub
    · simp [hst, List.forall_mem_cons]
    · simp [hst, ih, List.forall_mem_cons, Bool.not_eq_true] at hst ⊢

theorem mem_of_mem_reorder {l : List GossipSyncer} {o : List Vertex}
    {s : GossipSyncer} (h : s ∈ reorder l o) : s ∈ l := by
  induction o generalizing l with
  | nil =>
    rw [reorder] at h
    exact h
  | cons v vs ih =>
    rw [reorder] at h
    cases hl : lookupSyncer l v with
    | none =>
      rw [hl] at h
      exact ih h
    | some t =>
      rw [hl] at h
      rcases List.mem_cons.mp h with h1 | h1
      · exact h1 ▸ (lookupSyncer_some hl).1
      · exact mem_eraseSyncer (ih h1)

theorem perm_cons_eraseSyncer {l : List GossipSyncer} {v : Vertex}
    {s : GossipSyncer} (hn : NodupKeys l) (h : lookupSyncer l v = some s) :
    l.Perm (s :: eraseSyncer l v) := by
  induction l with
  | nil => simp [lookupSyncer] at h
  | cons t rest ih =>
    rcases nodupKeys_cons.mp hn with ⟨h1, h2⟩
    rw [lookupSyncer] at h
    by_cases ht : t.peerPub = v
    · rw [if_pos ht] at h
      injection h with h
      subst h
      rw [eraseSyncer, if_pos ht, eraseSyncer_of_not_mem (ht ▸ h1)]
    · rw [if_neg ht] at h
      rw [eraseSyncer, if_neg ht]
      exact ((ih h2 h).cons t).trans (List.Perm.swap s t _)

theorem reorder_perm {l : List GossipSyncer} {o : List Vertex}
    (hn : NodupKeys l) : (reorder l o).Perm l := by
  induction o generalizing l with
  | nil =>
    rw [reorder]
  | cons v vs ih =>
    rw [reorder]
    cases hl : lookupSyncer l v with
    | none => exact ih hn
    | some t =>
      exact ((ih (nodupKeys_eraseSyncer hn)).cons t).trans
        (perm_cons_eraseSyncer hn hl).symm

theorem chooseRandomSyncer_reorder_none {st : Vertex → Bool}
    {l : List GossipSyncer} {o : List Vertex} (hn : NodupKeys l) :
    chooseRandomSyncer st none (reorder l o) = none ↔
      ∀ s ∈ l, st s.peerPub = false := by
  rw [chooseRandomSyncer_none_iff]
  constructor
  · intro h s hs
    exact h s ((reorder_perm hn).mem_iff.mpr hs)
  · intro h s hs
    exact h s (mem_of_mem_reorder hs)

/-! ### Lemmas about `gossipSyncer` lookups -/

theorem gossipSyncer_of_inactive {ms : ManagerState} {peer : Vertex}
    {s : GossipSyncer} (h : lookupSyncer ms.inactiveSyncers peer = some s) :
    gossipSyncer ms peer = some s := by
  unfold gossipSyncer
  rw [h]

theorem gossipSyncer_of_inactive_none {ms : ManagerState} {peer : Vertex}
    (h : lookupSyncer ms.inactiveSyncers peer = none) :
    gossipSyncer ms peer = lookupSyncer ms.activeSyncers peer := by
  unfold gossipSyncer
  rw [h]

theorem gossipSyncer_eq_none {ms : ManagerState} {peer : Vertex} :
    gossipSyncer ms peer = none ↔
      peer ∉ keys ms.inactiveSyncers ∧ peer ∉ keys ms.activeSyncers := by
  constructor
  · intro h
    cases hl : lookupSyncer ms.inactiveSyncers peer with
    | some s =>
      rw [gossipSyncer_of_inactive hl] at h
      exact absurd h (by simp)
    | none =>
      rw [gossipSyncer_of_inactive_none hl] at h
      exact ⟨lookupSyncer_eq_none.mp hl, lookupSyncer_eq_none.mp h⟩
  · rintro ⟨h1, h2⟩
    rw [gossipSyncer_of_inactive_none (lookupSyncer_eq_none.mpr h1)]
    exact lookupSyncer_eq_none.mpr h2

/-! ### Frame facts: the sync-type transitions and the bootstrap state -/

theorem transitionActiveSyncer_boot {ms : ManagerState} {s : GossipSyncer}
    {ok : Bool} :
    (transitionActiveSyncer ms s ok).1.attemptInitialHistoricalSync =
        ms.attemptInitialHistoricalSync ∧
      (transitionActiveSyncer ms s ok).1.initialHistoricalSyncCompleted =
        ms.initialHistoricalSyncCompleted ∧
      (transitionActiveSyncer ms s ok).1.initialHistoricalSyncer =
        ms.initialHistoricalSyncer := by
  cases ok <;> simp [transitionActiveSyncer]

theorem transitionPassiveSyncer_boot {ms : ManagerState} {s : GossipSyncer}
    {ok : Bool} :
    (transitionPassiveSyncer ms s ok).1.attemptInitialHistoricalSync =
        ms.attemptInitialHistoricalSync ∧
      (transitionPassiveSyncer ms s ok).1.initialHistoricalSyncCompleted =
        ms.initialHistoricalSyncCompleted ∧
      (transitionPassiveSyncer ms s ok).1.initialHistoricalSyncer =
        ms.initialHistoricalSyncer := by
  cases ok <;> simp [transitionPassiveSyncer]

theorem transitionActiveSyncer_true {ms : ManagerState} {s : GossipSyncer} :
    (transitionActiveSyncer ms s true).1 =
      { ms with
          activeSyncers := eraseSyncer ms.activeSyncers s.peerPub,
          inactiveSyncers :=
            insertSyncer ms.inactiveSyncers
              { s with syncType := SyncType.PassiveSync } } := rfl

theorem transitionPassiveSyncer_true {ms : ManagerState} {s : GossipSyncer} :
    (transitionPassiveSyncer ms s true).1 =
      { ms with
          inactiveSyncers := eraseSyncer ms.inactiveSyncers s.peerPub,
          activeSyncers :=
            insertSyncer ms.activeSyncers
              { s with syncType := SyncType.ActiveSync } } := rfl

/-! ### Preservation of the structural registry invariant -/

theorem regInv_transitionPassiveSyncer {ms : ManagerState} {b : GossipSyncer}
    (h : RegInv ms) : RegInv (transitionPassiveSyncer ms b true).1 := by
  rcases h with ⟨h1, h2, h3⟩
  rw [transitionPassiveSyncer_true]
  refine ⟨nodupKeys_insertSyncer h1, nodupKeys_eraseSyncer h2, ?_⟩
  intro v hv hm
  rcases mem_keys_insertSyncer.mp hv with hv1 | hv1
  · exact h3 v hv1 (mem_keys_eraseSyncer.mp hm).1
  · exact (mem_keys_eraseSyncer.mp hm).2 hv1

theorem regInv_transitionActiveSyncer {ms : ManagerState} {a : GossipSyncer}
    (h : RegInv ms) : RegInv (transitionActiveSyncer ms a true).1 := by
  rcases h with ⟨h1, h2, h3⟩
  rw [transitionActiveSyncer_true]
  refine ⟨nodupKeys_eraseSyncer h1, nodupKeys_insertSyncer h2, ?_⟩
  intro v hv hm
  rcases mem_keys_eraseSyncer.mp hv with ⟨hv1, hv2⟩
  rcases mem_keys_insertSyncer.mp hm with hm1 | hm1
  · exact h3 v hv1 hm1
  · exact hv2 hm1

theorem promoteOne_regInv {o : DoneOracle} {i : Nat} {ms : ManagerState}
    (h : RegInv ms) :
    RegInv (promoteOne o i ms) ∧
      (promoteOne o i ms).activeSyncers.length ≤
        ms.activeSyncers.length + 1 := by
  unfold promoteOne
  cases hc : chooseRandomSyncer (o.st i) (some (o.ok i))
      (reorder ms.inactiveSyncers (o.ord i)) with
  | none => exact ⟨h, Nat.le_succ _⟩
  | some b =>
    exact ⟨regInv_transitionPassiveSyncer h,
      (length_insertSyncer_le :
        (insertSyncer ms.activeSyncers
            { b with syncType := SyncType.ActiveSync }).length ≤
          ms.activeSyncers.length + 1)⟩

theorem promoteOne_boot {o : DoneOracle} {i : Nat} {ms : ManagerState} :
    (promoteOne o i ms).attemptInitialHistoricalSync =
        ms.attemptInitialHistoricalSync ∧
      (promoteOne o i ms).initialHistoricalSyncCompleted =
        ms.initialHistoricalSyncCompleted ∧
      (promoteOne o i ms).initialHistoricalSyncer =
        ms.initialHistoricalSyncer := by
  unfold promoteOne
  cases hc : chooseRandomSyncer (o.st i) (some (o.ok i))
      (reorder ms.inactiveSyncers (o.ord i)) with
  | none => exact ⟨rfl, rfl, rfl⟩
  | some b => exact transitionPassiveSyncer_boot

theorem promoteLoop_regInv {o : DoneOracle} {n : Nat} :
    ∀ {i : Nat} {ms : ManagerState}, RegInv ms →
      RegInv (promoteLoop o n i ms) ∧
        (promoteLoop o n i ms).activeSyncers.length ≤
          ms.activeSyncers.length + n := by
  induction n with
  | zero =>
    intro i ms h
    exact ⟨h, Nat.le_refl _⟩
  | succ n ih =>
    intro i ms h
    rw [promoteLoop]
    rcases promoteOne_regInv (o := o) (i := i) h with ⟨h1, h2⟩
    rcases ih h1 with ⟨h3, h4⟩
    exact ⟨h3, by omega⟩

theorem promoteLoop_boot {o : DoneOracle} {n : Nat} :
    ∀ {i : Nat} {ms : ManagerState},
      (promoteLoop o n i ms).attemptInitialHistoricalSync =
          ms.attemptInitialHistoricalSync ∧
        (promoteLoop o n i ms).initialHistoricalSyncCompleted =
          ms.initialHistoricalSyncCompleted ∧
        (promoteLoop o n i ms).initialHistoricalSyncer =
          ms.initialHistoricalSyncer := by
  induction n with
  | zero =>
    intro i ms
    exact ⟨rfl, rfl, rfl⟩
  | succ n ih =>
    intro i ms
    rw [promoteLoop]
    rcases @ih (i + 1) (promoteOne o i ms) with ⟨h1, h2, h3⟩
    rcases @promoteOne_boot o i ms with ⟨g1, g2, g3⟩
    exact ⟨h1.trans g1, h2.trans g2, h3.trans g3⟩

/-! ### Lemmas about `removeGossipSyncer` -/

theorem removeGossipSyncer_not_found {ms : ManagerState} {o : DeregOracle}
    {peer : Vertex} (h : gossipSyncer ms peer = none) :
    removeGossipSyncer ms o peer = (ms, []) := by
  unfold removeGossipSyncer
  rw [h]

theorem removeGossipSyncer_boot {ms : ManagerState} {o : DeregOracle}
    {peer : Vertex} :
    (removeGossipSyncer ms o peer).1.attemptInitialHistoricalSync =
        ms.attemptInitialHistoricalSync ∧
      (removeGossipSyncer ms o peer).1.initialHistoricalSyncCompleted =
        ms.initialHistoricalSyncCompleted ∧
      (removeGossipSyncer ms o peer).1.initialHistoricalSyncer =
        ms.initialHistoricalSyncer := by
  unfold removeGossipSyncer
  split
  · exact ⟨rfl, rfl, rfl⟩
  · split
    · exact ⟨rfl, rfl, rfl⟩
    · dsimp only
      split
      · exact ⟨rfl, rfl, rfl⟩
      · exact transitionPassiveSyncer_boot

theorem removeGossipSyncer_inv {K : Nat} {ms : ManagerState} {o : DeregOracle}
    {peer : Vertex} (h : Inv K ms) : Inv K (removeGossipSyncer ms o peer).1 := by
  rcases h with ⟨⟨h1, h2, h3⟩, h4⟩
  unfold removeGossipSyncer
  split
  · exact ⟨⟨h1, h2, h3⟩, h4⟩
  next s hs =>
    split
    next t ht =>
      refine ⟨⟨h1, nodupKeys_eraseSyncer h2, ?_⟩, h4⟩
      intro v hv hm
      exact h3 v hv (mem_keys_eraseSyncer.mp hm).1
    next hni =>
      have hpa : peer ∈ keys ms.activeSyncers := by
        rw [gossipSyncer_of_inactive_none hni] at hs
        exact mem_keys_of_lookup_some hs
      have hlen := length_eraseSyncer_of_mem h1 hpa
      have hreg1 : RegInv
          { ms with activeSyncers := eraseSyncer ms.activeSyncers peer } := by
        refine ⟨nodupKeys_eraseSyncer h1, h2, ?_⟩
        intro v hv hm
        exact h3 v (mem_keys_eraseSyncer.mp hv).1 hm
      dsimp only
      split
      · exact ⟨hreg1, by
          dsimp only
          have := length_eraseSyncer_le (l := ms.activeSyncers) (v := peer)
          omega⟩
      next b hb =>
        refine ⟨regInv_transitionPassiveSyncer hreg1, ?_⟩
        dsimp only
        rw [transitionPassiveSyncer_true]
        dsimp only
        have := length_insertSyncer_le (l := eraseSyncer ms.activeSyncers peer)
          (s := { b with syncType := SyncType.ActiveSync })
        omega

/-! ### Lemmas about `rotateActiveSyncerCandidate` -/

theorem rotate_inv {K : Nat} {ms : ManagerState} {o : RotOracle}
    (h : Inv K ms) : Inv K (rotateActiveSyncerCandidate ms o) := by
  rcases h with ⟨⟨h1, h2, h3⟩, h4⟩
  unfold rotateActiveSyncerCandidate
  split
  · exact ⟨⟨h1, h2, h3⟩, h4⟩
  next a ha =>
    split
    · exact ⟨⟨h1, h2, h3⟩, h4⟩
    next b hb =>
      dsimp only
      have haa : a ∈ ms.activeSyncers :=
        mem_of_mem_reorder (chooseRandomSyncer_some ha).1
      have hak : a.peerPub ∈ keys ms.activeSyncers := mem_keys_of_mem haa
      have hlen := length_eraseSyncer_of_mem h1 hak
      cases hokA : o.okA with
      | false =>
        exact ⟨⟨h1, h2, h3⟩, h4⟩
      | true =>
        cases hokB : o.okB with
        | false =>
          show Inv K (transitionActiveSyncer ms a true).1
          refine ⟨regInv_transitionActiveSyncer ⟨h1, h2, h3⟩, ?_⟩
          rw [transitionActiveSyncer_true]
          dsimp only
          omega
        | true =>
          show Inv K
            (transitionPassiveSyncer (transitionActiveSyncer ms a true).1 b true).1
          refine ⟨regInv_transitionPassiveSyncer
            (regInv_transitionActiveSyncer ⟨h1, h2, h3⟩), ?_⟩
          rw [transitionPassiveSyncer_true]
          dsimp only
          rw [transitionActiveSyncer_true]
          dsimp only
          have := length_insertSyncer_le
            (l := eraseSyncer ms.activeSyncers a.peerPub)
            (s := { b with syncType := SyncType.ActiveSync })
          omega

theorem rotate_boot {ms : ManagerState} {o : RotOracle} :
    (rotateActiveSyncerCandidate ms o).attemptInitialHistoricalSync =
        ms.attemptInitialHistoricalSync ∧
      (rotateActiveSyncerCandidate ms o).initialHistoricalSyncCompleted =
        ms.initialHistoricalSyncCompleted ∧
      (rotateActiveSyncerCandidate ms o).initialHistoricalSyncer =
        ms.initialHistoricalSyncer := by
  unfold rotateActiveSyncerCandidate
  split
  · exact ⟨rfl, rfl, rfl⟩
  · split
    · exact ⟨rfl, rfl, rfl⟩
    next b hb =>
      dsimp only
      cases hokA : o.okA with
      | false =>
        exact ⟨rfl, rfl, rfl⟩
      | true =>
        cases hokB : o.okB with
        | false =>
          exact ⟨rfl, rfl, rfl⟩
        | true =>
          exact ⟨rfl, rfl, rfl⟩

/-! ### The run-level invariants -/

/-- The bootstrap invariant that actually holds on the loop state: when
no initial-historical syncer is referenced and the bootstrap has not
completed, a new attempt is pending. -/
def BootInv (ms : ManagerState) : Prop :=
  ms.initialHistoricalSyncer = none →
    ms.initialHistoricalSyncCompleted = false →
      ms.attemptInitialHistoricalSync = true

theorem inv_initialState {K : Nat} : Inv K initialState :=
  ⟨⟨nodupKeys_nil, nodupKeys_nil, fun v hv => by simp [initialState, keys_nil] at hv⟩,
    Nat.zero_le _⟩

theorem bootInv_initialState : BootInv initialState := fun _ _ => rfl

theorem inv_of_maps_eq {K : Nat} {ms1 ms2 : ManagerState}
    (ha : ms2.activeSyncers = ms1.activeSyncers)
    (hb : ms2.inactiveSyncers = ms1.inactiveSyncers) (h : Inv K ms1) :
    Inv K ms2 := by
  rcases h with ⟨⟨h1, h2, h3⟩, h4⟩
  refine ⟨⟨?_, ?_, ?_⟩, ?_⟩
  · rw [ha]; exact h1
  · rw [hb]; exact h2
  · rw [ha, hb]; exact h3
  · rw [ha]; exact h4

theorem bootInv_of_boot_eq {ms1 ms2 : ManagerState}
    (ha : ms2.attemptInitialHistoricalSync = ms1.attemptInitialHistoricalSync)
    (hb : ms2.initialHistoricalSyncCompleted = ms1.initialHistoricalSyncCompleted)
    (hc : ms2.initialHistoricalSyncer = ms1.initialHistoricalSyncer)
    (h : BootInv ms1) : BootInv ms2 := by
  intro hn hcp
  rw [ha]
  exact h (hc.symm.trans hn) (hb.symm.trans hcp)

/-! ### Lemmas about the register and deregister sub-phases -/

theorem attemptHistSync_maps {ms1 : ManagerState} {peer : Vertex}
    {histOk : Bool} :
    (attemptHistSync ms1 peer histOk).activeSyncers = ms1.activeSyncers ∧
      (attemptHistSync ms1 peer histOk).inactiveSyncers = ms1.inactiveSyncers := by
  unfold attemptHistSync
  split
  · exact ⟨rfl, rfl⟩
  · split
    · exact ⟨rfl, rfl⟩
    · exact ⟨rfl, rfl⟩

theorem replaceInitialHistSyncer_maps {ms1 : ManagerState} {peer : Vertex}
    {o : DeregOracle} :
    (replaceInitialHistSyncer ms1 peer o).activeSyncers = ms1.activeSyncers ∧
      (replaceInitialHistSyncer ms1 peer o).inactiveSyncers =
        ms1.inactiveSyncers := by
  unfold replaceInitialHistSyncer
  split
  · exact ⟨rfl, rfl⟩
  · split
    · exact ⟨rfl, rfl⟩
    · split
      · exact ⟨rfl, rfl⟩
      · exact ⟨rfl, rfl⟩

theorem classifyNewSyncer_boot {K : Nat} {ms : ManagerState}
    {s : GossipSyncer} :
    (classifyNewSyncer K ms s).attemptInitialHistoricalSync =
        ms.attemptInitialHistoricalSync ∧
      (classifyNewSyncer K ms s).initialHistoricalSyncCompleted =
        ms.initialHistoricalSyncCompleted ∧
      (classifyNewSyncer K ms s).initialHistoricalSyncer =
        ms.initialHistoricalSyncer := by
  unfold classifyNewSyncer
  split
  · exact ⟨rfl, rfl, rfl⟩
  · split
    · exact ⟨rfl, rfl, rfl⟩
    · exact ⟨rfl, rfl, rfl⟩

theorem inv_classifyNewSyncer {K : Nat} {ms : ManagerState} {s : GossipSyncer}
    (h : Inv K ms) (hpi : s.peerPub ∉ keys ms.inactiveSyncers)
    (hpa : s.peerPub ∉ keys ms.activeSyncers) :
    Inv K (classifyNewSyncer K ms s) := by
  rcases h with ⟨⟨h1, h2, h3⟩, h4⟩
  unfold classifyNewSyncer
  split
  · refine ⟨⟨h1, nodupKeys_insertSyncer h2, ?_⟩, h4⟩
    intro v hv hm
    rcases mem_keys_insertSyncer.mp hm with hm1 | hm1
    · exact h3 v hv hm1
    · exact hpa (hm1 ▸ hv)
  · split
    · refine ⟨⟨h1, nodupKeys_insertSyncer h2, ?_⟩, h4⟩
      intro v hv hm
      rcases mem_keys_insertSyncer.mp hm with hm1 | hm1
      · exact h3 v hv hm1
      · exact hpa (hm1 ▸ hv)
    next hK _ =>
      refine ⟨⟨nodupKeys_insertSyncer h1, h2, ?_⟩, ?_⟩
      · intro v hv hm
        rcases mem_keys_insertSyncer.mp hv with hv1 | hv1
        · exact h3 v hv1 hm
        · exact hpi (hv1 ▸ hm)
      · dsimp only
        rw [length_insertSyncer_of_not_mem
          (s := { peerPub := s.peerPub, syncType := SyncType.ActiveSync }) hpa]
        omega

theorem bootInv_attemptHistSync {ms1 : ManagerState} {peer : Vertex}
    {histOk : Bool} (h : BootInv ms1) :
    BootInv (attemptHistSync ms1 peer histOk) := by
  unfold attemptHistSync
  split
  · exact h
  · split
    · exact h
    · intro hn
      simp at hn

theorem bootInv_replaceInitialHistSyncer {ms1 : ManagerState} {peer : Vertex}
    {o : DeregOracle} (h : BootInv ms1) :
    BootInv (replaceInitialHistSyncer ms1 peer o) := by
  unfold replaceInitialHistSyncer
  split
  · exact h
  · split
    · exact h
    · split
      · intro _ _
        rfl
      · intro hn
        simp at hn

/-! ### Step-level preservation of the invariants -/

theorem inv_step {K : Nat} {ms : ManagerState} (e : Event) (h : Inv K ms) :
    Inv K (step K ms e).1 := by
  cases e with
  | register peer o =>
    unfold step
    dsimp only
    cases hg : gossipSyncer ms peer with
    | some s => exact h
    | none =>
      rcases gossipSyncer_eq_none.mp hg with ⟨hpi, hpa⟩
      dsimp only
      rcases @attemptHistSync_maps
          (classifyNewSyncer K ms (createGossipSyncer peer))
          peer o.histOk with ⟨ha, hb⟩
      exact inv_of_maps_eq ha hb (inv_classifyNewSyncer h hpi hpa)
  | deregister peer o =>
    unfold step
    dsimp only
    rcases @replaceInitialHistSyncer_maps
        (removeGossipSyncer ms o peer).1 peer o
      with ⟨ha, hb⟩
    exact inv_of_maps_eq ha hb (removeGossipSyncer_inv h)
  | initialSyncDone o =>
    unfold step
    dsimp only
    cases hi : ms.initialHistoricalSyncer with
    | none => exact h
    | some v =>
      dsimp only
      show Inv K (promoteLoop o (K - ms.activeSyncers.length) 0
        { ms with
            initialHistoricalSyncer := none,
            initialHistoricalSyncCompleted := true })
      rcases h with ⟨hreg, h4⟩
      have hp := @promoteLoop_regInv o (K - ms.activeSyncers.length) 0
        { ms with
            initialHistoricalSyncer := none,
            initialHistoricalSyncCompleted := true }
        hreg
      refine ⟨hp.1, ?_⟩
      have hp2 := hp.2
      have h5 : ({ ms with
          initialHistoricalSyncer := none,
          initialHistoricalSyncCompleted := true } :
            ManagerState).activeSyncers = ms.activeSyncers := rfl
      rw [h5] at hp2
      omega
  | rotateTick o =>
    unfold step
    dsimp only
    exact rotate_inv h
  | histTick o =>
    unfold step
    dsimp only
    exact h

theorem bootInv_step {K : Nat} {ms : ManagerState} (e : Event)
    (h : BootInv ms) : BootInv (step K ms e).1 := by
  cases e with
  | register peer o =>
    unfold step
    dsimp only
    cases hg : gossipSyncer ms peer with
    | some s => exact h
    | none =>
      dsimp only
      refine bootInv_attemptHistSync ?_
      rcases @classifyNewSyncer_boot K ms (createGossipSyncer peer)
        with ⟨c1, c2, c3⟩
      exact bootInv_of_boot_eq c1 c2 c3 h
  | deregister peer o =>
    unfold step
    dsimp only
    refine bootInv_replaceInitialHistSyncer ?_
    rcases @removeGossipSyncer_boot ms o peer
      with ⟨c1, c2, c3⟩
    exact bootInv_of_boot_eq c1 c2 c3 h
  | initialSyncDone o =>
    unfold step
    dsimp only
    cases hi : ms.initialHistoricalSyncer with
    | none => exact h
    | some v =>
      dsimp only
      show BootInv (promoteLoop o (K - ms.activeSyncers.length) 0
        { ms with
            initialHistoricalSyncer := none,
            initialHistoricalSyncCompleted := true })
      intro hn hc
      have hp := @promoteLoop_boot o (K - ms.activeSyncers.length) 0
        { ms with
            initialHistoricalSyncer := none,
            initialHistoricalSyncCompleted := true }
      rw [hp.2.1] at hc
      simp at hc
  | rotateTick o =>
    unfold step
    dsimp only
    rcases @rotate_boot ms o with ⟨c1, c2, c3⟩
    exact bootInv_of_boot_eq c1 c2 c3 h
  | histTick o =>
    unfold step
    dsimp only
    exact h

theorem inv_foldl {K : Nat} :
    ∀ (evs : List Event) (ms : ManagerState), Inv K ms →
      Inv K (evs.foldl (fun ms e => (step K ms e).1) ms) := by
  intro evs
  induction evs with
  | nil => exact fun ms h => h
  | cons e rest ih => exact fun ms h => ih _ (inv_step e h)

theorem bootInv_foldl {K : Nat} :
    ∀ (evs : List Event) (ms : ManagerState), BootInv ms →
      BootInv (evs.foldl (fun ms e => (step K ms e).1) ms) := by
  intro evs
  induction evs with
  | nil => exact fun ms h => h
  | cons e rest ih => exact fun ms h => ih _ (bootInv_step e h)

theorem inv_run (K : Nat) (evs : List Event) : Inv K (run K evs) :=
  inv_foldl evs initialState inv_initialState

theorem bootInv_run (K : Nat) (evs : List Event) : BootInv (run K evs) :=
  bootInv_foldl evs initialState bootInv_initialState

/-! ### Characterisations of single steps -/

theorem step_register_found {K : Nat} {ms : ManagerState} {peer : Vertex}
    {o : RegOracle} {s : GossipSyncer} (h : gossipSyncer ms peer = some s) :
    step K ms (Event.register peer o) =
      (ms, { starts := [], stops := [], doneSignalled := true }) := by
  unfold step
  dsimp only
  rw [h]

theorem step_register_new {K : Nat} {ms : ManagerState} {peer : Vertex}
    {o : RegOracle} (h : gossipSyncer ms peer = none) :
    step K ms (Event.register peer o) =
      (attemptHistSync (classifyNewSyncer K ms (createGossipSyncer peer))
          peer o.histOk,
        { starts := [peer], stops := [], doneSignalled := true }) := by
  unfold step
  dsimp only
  rw [h]

theorem step_deregister_eq {K : Nat} {ms : ManagerState} {peer : Vertex}
    {o : DeregOracle} :
    step K ms (Event.deregister peer o) =
      (replaceInitialHistSyncer (removeGossipSyncer ms o peer).1 peer o,
        { starts := [], stops := (removeGossipSyncer ms o peer).2,
          doneSignalled := true }) := rfl

theorem gossipSyncer_congr {ms1 ms2 : ManagerState}
    (ha : ms2.activeSyncers = ms1.activeSyncers)
    (hb : ms2.inactiveSyncers = ms1.inactiveSyncers) (peer : Vertex) :
    gossipSyncer ms2 peer = gossipSyncer ms1 peer := by
  unfold gossipSyncer
  rw [ha, hb]

theorem gossipSyncer_classifyNewSyncer_self {K : Nat} {ms : ManagerState}
    {s : GossipSyncer} {peer : Vertex} (hpk : s.peerPub = peer)
    (hpi : peer ∉ keys ms.inactiveSyncers) :
    ∃ t, gossipSyncer (classifyNewSyncer K ms s) peer = some t := by
  subst hpk
  unfold classifyNewSyncer
  split
  · exact ⟨_, gossipSyncer_of_inactive lookupSyncer_insertSyncer_self⟩
  · split
    · exact ⟨_, gossipSyncer_of_inactive lookupSyncer_insertSyncer_self⟩
    · refine ⟨{ s with syncType := SyncType.ActiveSync }, ?_⟩
      have hms2 :
          gossipSyncer { ms with activeSyncers := insertSyncer ms.activeSyncers { s with syncType := SyncType.ActiveSync } } s.peerPub =
            lookupSyncer (insertSyncer ms.activeSyncers { s with syncType := SyncType.ActiveSync }) s.peerPub :=
        gossipSyncer_of_inactive_none (lookupSyncer_eq_none.mpr hpi)
      rw [hms2]
      exact lookupSyncer_insertSyncer_self

/-! ### Concrete inputs used by the closed evaluation theorems -/

/-- A register oracle whose `historicalSync()` attempt succeeds. -/
def regOracleOk : RegOracle := { histOk := true }

/-- A deregister oracle under which no candidate is eligible and every
fallible call fails. -/
def deregOracleNone : DeregOracle :=
  { ordPromote := [], stPromote := fun _ => false, okPromote := fun _ => false,
    ordHist := [], stHist := fun _ => false, okHist := fun _ => false }

/-- An initial-sync-done oracle under which every syncer is in
`chansSynced` and every transition succeeds. -/
def doneOracleAll : DoneOracle :=
  { ord := fun _ => [], st := fun _ _ => true, ok := fun _ _ => true }

/-- A rotation oracle under which every syncer is eligible and both
transitions succeed. -/
def rotOracleAll : RotOracle :=
  { ordA := [], stA := fun _ => true, ordB := [], stB := fun _ => true,
    okA := true, okB := true }

/-- The two-event scenario behind the C1 counterexample: register peer
`0` (whose initial historical sync starts successfully), then
deregister it while no replacement candidate exists. -/
def c1Events : List Event :=
  [Event.register 0 regOracleOk, Event.deregister 0 deregOracleNone]

/-- A registry holding peer `0` as a passive syncer. -/
def msWithPeer0 : ManagerState :=
  { activeSyncers := []
    inactiveSyncers := [{ peerPub := 0, syncType := SyncType.PassiveSync }]
    attemptInitialHistoricalSync := true
    initialHistoricalSyncCompleted := false
    initialHistoricalSyncer := none }

/-- A post-bootstrap registry with one active and one passive syncer. -/
def msOneEach : ManagerState :=
  { activeSyncers := [{ peerPub := 1, syncType := SyncType.ActiveSync }]
    inactiveSyncers := [{ peerPub := 2, syncType := SyncType.PassiveSync }]
    attemptInitialHistoricalSync := false
    initialHistoricalSyncCompleted := true
    initialHistoricalSyncer := none }

/-! ### The claims -/

/-- C1, refuted: the claimed equivalence
`attemptInitialHistoricalSync = true ⇔ initialHistoricalSyncer unset ∧
initial sync not completed` fails on the code.  After registering peer 0
(which starts the initial historical sync) and then deregistering it
with no replacement available, the loop sets
`attemptInitialHistoricalSync` but never clears
`initialHistoricalSyncer`, which still references the departed peer. -/
theorem C1_counterexample :
    ¬ ((run 1 c1Events).attemptInitialHistoricalSync = true ↔
        ((run 1 c1Events).initialHistoricalSyncer = none ∧
          (run 1 c1Events).initialHistoricalSyncCompleted = false)) := by
  decide

/-- C1 (amended): in every reachable state of the event loop, if
`initialHistoricalSyncer` is unset and the initial historical sync has
not completed, then `attemptInitialHistoricalSync` is true.  The
converse implication of the original claim fails: deregistering the
initial-historical syncer when no replacement is available sets
`attemptInitialHistoricalSync` while leaving `initialHistoricalSyncer`
pointing at the departed syncer. -/
theorem C1_boot_invariant (K : Nat) (evs : List Event)
    (h1 : (run K evs).initialHistoricalSyncer = none)
    (h2 : (run K evs).initialHistoricalSyncCompleted = false) :
    (run K evs).attemptInitialHistoricalSync = true :=
  bootInv_run K evs h1 h2

theorem C1_boot_invariant_witness :
    (run 3 []).initialHistoricalSyncer = none ∧
      (run 3 []).initialHistoricalSyncCompleted = false ∧
      (run 3 []).attemptInitialHistoricalSync = true :=
  ⟨rfl, rfl, C1_boot_invariant 3 [] rfl rfl⟩

/-- C2: for every `NumActiveSyncers` bound `K` and every finite event
sequence processed by the loop, the active map holds at most `K`
syncers: registration, the promotion loop after the initial sync,
replacement after deregistering an active syncer, and rotation all
preserve the bound. -/
theorem C2_active_le_K (K : Nat) (evs : List Event) :
    (run K evs).activeSyncers.length ≤ K :=
  (inv_run K evs).2

/-- C3: after every event-loop iteration the two registry maps are
disjoint: no peer key is in both, so each distinct peer appears in at
most one map. -/
theorem C3_disjoint (K : Nat) (evs : List Event) (v : Vertex)
    (h : v ∈ keys (run K evs).activeSyncers) :
    v ∉ keys (run K evs).inactiveSyncers :=
  (inv_run K evs).1.2.2 v h

/-- The three-event scenario used to witness C3 with a non-empty active
map. -/
def c3Events : List Event :=
  [Event.register 0 regOracleOk, Event.initialSyncDone doneOracleAll]

theorem C3_disjoint_witness :
    0 ∈ keys (run 1 c3Events).activeSyncers ∧
      0 ∉ keys (run 1 c3Events).inactiveSyncers :=
  ⟨by decide, C3_disjoint 1 c3Events 0 (by decide)⟩

/-- C6: when the requested `ProcessSyncTransition` fails (oracle
outcome `false`), both `transitionActiveSyncer` and
`transitionPassiveSyncer` return the error and leave the registry state
exactly as it was; only a successful transition mutates the maps. -/
theorem C6_transition_error_frame (ms : ManagerState) (s : GossipSyncer)
    (ok : Bool) (h : ok = false) :
    transitionActiveSyncer ms s ok = (ms, true) ∧
      transitionPassiveSyncer ms s ok = (ms, true) := by
  subst h
  exact ⟨rfl, rfl⟩

theorem C6_transition_error_frame_witness :
    transitionActiveSyncer msOneEach
        { peerPub := 1, syncType := SyncType.ActiveSync } false =
      (msOneEach, true) ∧
      transitionPassiveSyncer msOneEach
          { peerPub := 2, syncType := SyncType.PassiveSync } false =
        (msOneEach, true) :=
  C6_transition_error_frame msOneEach
    { peerPub := 1, syncType := SyncType.ActiveSync } false rfl
    |>.imp id (fun _ =>
      (C6_transition_error_frame msOneEach
        { peerPub := 2, syncType := SyncType.PassiveSync } false rfl).2)

/-- C7: a register event for a peer that already has a syncer in either
map signals done (so `InitSyncState` returns success) and does nothing
else: no syncer is created or started, both maps and the bootstrap
state are untouched. -/
theorem C7_register_idempotent (K : Nat) (ms : ManagerState) (peer : Vertex)
    (o : RegOracle) (s : GossipSyncer) (h : gossipSyncer ms peer = some s) :
    step K ms (Event.register peer o) =
      (ms, { starts := [], stops := [], doneSignalled := true }) :=
  step_register_found h

theorem C7_register_idempotent_witness :
    step 1 msWithPeer0 (Event.register 0 regOracleOk) =
      (msWithPeer0, { starts := [], stops := [], doneSignalled := true }) :=
  C7_register_idempotent 1 msWithPeer0 0 regOracleOk
    { peerPub := 0, syncType := SyncType.PassiveSync } (by decide)

/-- C9: a deregister event for a peer present in neither map leaves
both maps unchanged, stops no syncer, promotes nothing, and still
signals done so that `PruneSyncState` returns normally. -/
theorem C9_deregister_unknown_frame (K : Nat) (ms : ManagerState)
    (peer : Vertex) (o : DeregOracle) (h : gossipSyncer ms peer = none) :
    (step K ms (Event.deregister peer o)).1.activeSyncers =
        ms.activeSyncers ∧
      (step K ms (Event.deregister peer o)).1.inactiveSyncers =
        ms.inactiveSyncers ∧
      (step K ms (Event.deregister peer o)).2.stops = [] ∧
      (step K ms (Event.deregister peer o)).2.doneSignalled = true := by
  have hr := removeGossipSyncer_not_found (o := o) h
  rw [step_deregister_eq, hr]
  rcases @replaceInitialHistSyncer_maps ms peer o
    with ⟨ha, hb⟩
  exact ⟨ha, hb, rfl, rfl⟩

theorem C9_deregister_unknown_frame_witness :
    (step 1 msOneEach (Event.deregister 7 deregOracleNone)).1.activeSyncers =
        msOneEach.activeSyncers ∧
      (step 1 msOneEach (Event.deregister 7 deregOracleNone)).1.inactiveSyncers =
        msOneEach.inactiveSyncers ∧
      (step 1 msOneEach (Event.deregister 7 deregOracleNone)).2.stops = [] ∧
      (step 1 msOneEach (Event.deregister 7 deregOracleNone)).2.doneSignalled =
        true :=
  C9_deregister_unknown_frame 1 msOneEach 7 deregOracleNone (by decide)

/-- C10: a historical-sync tick never changes the manager state:
`forceHistoricalSync` only reads the union of the two maps (asking
candidates for a historical sync), so membership and classification of
every syncer are identical before and after the tick, whatever the
oracle outcomes. -/
theorem C10_histTick_frame (K : Nat) (ms : ManagerState) (o : HistOracle) :
    step K ms (Event.histTick o) =
      (ms, { starts := [], stops := [], doneSignalled := false }) := rfl

/-- C4: classification of a register event for a not-yet-known peer:
before the initial historical sync completes the new syncer is made
passive and put in `inactiveSyncers` regardless of free active slots;
after completion it is made active when the active map has room, and
passive (into `inactiveSyncers`) when it is full. -/
theorem C4_register_classification (K : Nat) (ms : ManagerState)
    (peer : Vertex) (o : RegOracle) (h : gossipSyncer ms peer = none) :
    (ms.initialHistoricalSyncCompleted = false →
        (step K ms (Event.register peer o)).1.activeSyncers =
            ms.activeSyncers ∧
          lookupSyncer (step K ms (Event.register peer o)).1.inactiveSyncers
              peer =
            some { peerPub := peer, syncType := SyncType.PassiveSync }) ∧
      (ms.initialHistoricalSyncCompleted = true →
        ms.activeSyncers.length < K →
        (step K ms (Event.register peer o)).1.inactiveSyncers =
            ms.inactiveSyncers ∧
          lookupSyncer (step K ms (Event.register peer o)).1.activeSyncers
              peer =
            some { peerPub := peer, syncType := SyncType.ActiveSync }) ∧
      (K ≤ ms.activeSyncers.length →
        (step K ms (Event.register peer o)).1.activeSyncers =
            ms.activeSyncers ∧
          lookupSyncer (step K ms (Event.register peer o)).1.inactiveSyncers
              peer =
            some { peerPub := peer, syncType := SyncType.PassiveSync }) := by
  rw [step_register_new h]
  dsimp only
  rcases @attemptHistSync_maps
      (classifyNewSyncer K ms (createGossipSyncer peer))
      peer o.histOk with ⟨ha, hb⟩
  rw [ha, hb]
  refine ⟨?_, ?_, ?_⟩
  · intro hC
    unfold classifyNewSyncer
    by_cases hK : ms.activeSyncers.length ≥ K
    · rw [if_pos hK]
      exact ⟨rfl, lookupSyncer_insertSyncer_self⟩
    · have hcond : (! ms.initialHistoricalSyncCompleted) = true := by
        rw [hC]
        rfl
      rw [if_neg hK, if_pos hcond]
      exact ⟨rfl, lookupSyncer_insertSyncer_self⟩
  · intro hC hlt
    have hK : ¬ ms.activeSyncers.length ≥ K := by omega
    have hcond : ¬ ((! ms.initialHistoricalSyncCompleted) = true) := by
      rw [hC]
      simp
    unfold classifyNewSyncer
    rw [if_neg hK, if_neg hcond]
    exact ⟨rfl, lookupSyncer_insertSyncer_self⟩
  · intro hK
    unfold classifyNewSyncer
    rw [if_pos hK]
    exact ⟨rfl, lookupSyncer_insertSyncer_self⟩

theorem C4_register_classification_witness :
    (step 1 initialState (Event.register 0 regOracleOk)).1.activeSyncers =
        initialState.activeSyncers ∧
      lookupSyncer
          (step 1 initialState (Event.register 0 regOracleOk)).1.inactiveSyncers
          0 =
        some { peerPub := 0, syncType := SyncType.PassiveSync } :=
  (C4_register_classification 1 initialState 0 regOracleOk (by decide)).1 rfl

/-- C8: whenever a register event completes (closing the done channel,
which is what makes `InitSyncState` return success rather than the
exiting error), the peer's syncer has already been inserted into one of
the registry maps — a genuinely new peer having also been started — so
any subsequent `GossipSyncer` lookup finds it. -/
theorem C8_register_observable (K : Nat) (ms : ManagerState) (peer : Vertex)
    (o : RegOracle) :
    (step K ms (Event.register peer o)).2.doneSignalled = true ∧
      (gossipSyncer (step K ms (Event.register peer o)).1 peer).isSome =
        true ∧
      (gossipSyncer ms peer = none →
        (step K ms (Event.register peer o)).2.starts = [peer]) := by
  cases hg : gossipSyncer ms peer with
  | some s =>
    rw [step_register_found hg]
    refine ⟨rfl, ?_, ?_⟩
    · rw [hg]
      rfl
    · intro hn
      exact Option.noConfusion hn
  | none =>
    rw [step_register_new hg]
    rcases gossipSyncer_eq_none.mp hg with ⟨hpi, hpa⟩
    refine ⟨rfl, ?_, fun _ => rfl⟩
    dsimp only
    rcases @attemptHistSync_maps
        (classifyNewSyncer K ms (createGossipSyncer peer))
        peer o.histOk with ⟨ha, hb⟩
    rw [gossipSyncer_congr ha hb]
    rcases @gossipSyncer_classifyNewSyncer_self K ms
        (createGossipSyncer peer) peer rfl hpi with ⟨t, ht⟩
    rw [ht]
    rfl

theorem C8_register_observable_witness :
    (step 1 initialState (Event.register 0 regOracleOk)).2.doneSignalled =
        true ∧
      (gossipSyncer (step 1 initialState (Event.register 0 regOracleOk)).1
          0).isSome = true ∧
      (step 1 initialState (Event.register 0 regOracleOk)).2.starts = [0] :=
  have h := C8_register_observable 1 initialState 0 regOracleOk
  ⟨h.1, h.2.1, h.2.2 rfl⟩

/-- C5: rotation is a no-op on the registry when no active syncer is in
`chansSynced` or no inactive syncer is; it also aborts without touching
the candidate when the chosen active syncer's transition fails
(`okA = false`); and when eligible syncers exist on both sides and both
transitions succeed, some eligible active `a` and eligible inactive `b`
are picked, `a` moves out of the active map into the inactive one, `b`
moves the other way, the size of the active map is unchanged, and every
peer other than `a` and `b` is mapped exactly as before in both maps —
so exactly one syncer moves in each direction. -/
theorem C5_rotate (ms : ManagerState) (o : RotOracle) (hInv : RegInv ms) :
    ((∀ s ∈ ms.activeSyncers, o.stA s.peerPub = false) →
        rotateActiveSyncerCandidate ms o = ms) ∧
      ((∀ s ∈ ms.inactiveSyncers, o.stB s.peerPub = false) →
        rotateActiveSyncerCandidate ms o = ms) ∧
      (o.okA = false → rotateActiveSyncerCandidate ms o = ms) ∧
      ((∃ s ∈ ms.activeSyncers, o.stA s.peerPub = true) →
        (∃ s ∈ ms.inactiveSyncers, o.stB s.peerPub = true) →
        o.okA = true → o.okB = true →
        ∃ a b, a ∈ ms.activeSyncers ∧ o.stA a.peerPub = true ∧
          b ∈ ms.inactiveSyncers ∧ o.stB b.peerPub = true ∧
          (rotateActiveSyncerCandidate ms o).activeSyncers.length =
            ms.activeSyncers.length ∧
          a.peerPub ∉ keys (rotateActiveSyncerCandidate ms o).activeSyncers ∧
          a.peerPub ∈ keys (rotateActiveSyncerCandidate ms o).inactiveSyncers ∧
          b.peerPub ∈ keys (rotateActiveSyncerCandidate ms o).activeSyncers ∧
          b.peerPub ∉
            keys (rotateActiveSyncerCandidate ms o).inactiveSyncers ∧
          (∀ v, v ≠ a.peerPub → v ≠ b.peerPub →
            lookupSyncer (rotateActiveSyncerCandidate ms o).activeSyncers v =
                lookupSyncer ms.activeSyncers v ∧
              lookupSyncer
                  (rotateActiveSyncerCandidate ms o).inactiveSyncers v =
                lookupSyncer ms.inactiveSyncers v)) := by
  rcases hInv with ⟨h1, h2, h3⟩
  refine ⟨?_, ?_, ?_, ?_⟩
  · intro hno
    have hc : chooseRandomSyncer o.stA none
        (reorder ms.activeSyncers o.ordA) = none :=
      (chooseRandomSyncer_reorder_none h1).mpr hno
    unfold rotateActiveSyncerCandidate
    rw [hc]
  · intro hno
    have hcB : chooseRandomSyncer o.stB none
        (reorder ms.inactiveSyncers o.ordB) = none :=
      (chooseRandomSyncer_reorder_none h2).mpr hno
    unfold rotateActiveSyncerCandidate
    cases hcA : chooseRandomSyncer o.stA none
        (reorder ms.activeSyncers o.ordA) with
    | none => rfl
    | some a =>
      rw [hcB]
  · intro hok
    unfold rotateActiveSyncerCandidate
    cases hcA : chooseRandomSyncer o.stA none
        (reorder ms.activeSyncers o.ordA) with
    | none => rfl
    | some a =>
      cases hcB : chooseRandomSyncer o.stB none
          (reorder ms.inactiveSyncers o.ordB) with
      | none => rfl
      | some b =>
        rw [hok]
        rfl
  · intro hA hB hokA hokB
    cases hcA : chooseRandomSyncer o.stA none
        (reorder ms.activeSyncers o.ordA) with
    | none =>
      rcases hA with ⟨s, hs, hst⟩
      have hcontra := (chooseRandomSyncer_reorder_none h1).mp hcA s hs
      rw [hst] at hcontra
      cases hcontra
    | some a =>
      cases hcB : chooseRandomSyncer o.stB none
          (reorder ms.inactiveSyncers o.ordB) with
      | none =>
        rcases hB with ⟨s, hs, hst⟩
        have hcontra := (chooseRandomSyncer_reorder_none h2).mp hcB s hs
        rw [hst] at hcontra
        cases hcontra
      | some b =>
        have hrot : rotateActiveSyncerCandidate ms o =
            (transitionPassiveSyncer (transitionActiveSyncer ms a true).1 b
              true).1 := by
          unfold rotateActiveSyncerCandidate
          rw [hcA, hcB, hokA, hokB]
          rfl
        rcases chooseRandomSyncer_some hcA with ⟨haR, hstA⟩
        have haM : a ∈ ms.activeSyncers := mem_of_mem_reorder haR
        rcases chooseRandomSyncer_some hcB with ⟨hbR, hstB⟩
        have hbM : b ∈ ms.inactiveSyncers := mem_of_mem_reorder hbR
        have hak : a.peerPub ∈ keys ms.activeSyncers := mem_keys_of_mem haM
        have hbk : b.peerPub ∈ keys ms.inactiveSyncers := mem_keys_of_mem hbM
        have hab : a.peerPub ≠ b.peerPub := by
          intro he
          exact h3 a.peerPub hak (by rw [he]; exact hbk)
        have hbact : b.peerPub ∉ keys ms.activeSyncers :=
          fun hm => h3 _ hm hbk
        refine ⟨a, b, haM, hstA, hbM, hstB, ?_, ?_, ?_, ?_, ?_, ?_⟩
        · rw [hrot, transitionPassiveSyncer_true]
          dsimp only
          rw [transitionActiveSyncer_true]
          dsimp only
          have hbe : b.peerPub ∉
              keys (eraseSyncer ms.activeSyncers a.peerPub) :=
            fun hm => hbact (mem_keys_eraseSyncer.mp hm).1
          rw [length_insertSyncer_of_not_mem
            (s := { peerPub := b.peerPub, syncType := SyncType.ActiveSync })
            hbe]
          have := length_eraseSyncer_of_mem h1 hak
          omega
        · rw [hrot, transitionPassiveSyncer_true]
          dsimp only
          rw [transitionActiveSyncer_true]
          dsimp only
          intro hm
          rcases mem_keys_insertSyncer.mp hm with hm1 | hm1
          · exact (mem_keys_eraseSyncer.mp hm1).2 rfl
          · exact hab hm1
        · rw [hrot, transitionPassiveSyncer_true]
          dsimp only
          rw [transitionActiveSyncer_true]
          dsimp only
          exact mem_keys_eraseSyncer.mpr
            ⟨mem_keys_insertSyncer.mpr (Or.inr rfl), hab⟩
        · rw [hrot, transitionPassiveSyncer_true]
          dsimp only
          rw [transitionActiveSyncer_true]
          dsimp only
          exact mem_keys_insertSyncer.mpr (Or.inr rfl)
        · rw [hrot, transitionPassiveSyncer_true]
          dsimp only
          rw [transitionActiveSyncer_true]
          dsimp only
          intro hm
          exact (mem_keys_eraseSyncer.mp hm).2 rfl
        · rw [hrot, transitionPassiveSyncer_true]
          dsimp only
          rw [transitionActiveSyncer_true]
          dsimp only
          intro v hva hvb
          constructor
          · rw [@lookupSyncer_insertSyncer_ne
                (eraseSyncer ms.activeSyncers a.peerPub)
                { peerPub := b.peerPub, syncType := SyncType.ActiveSync }
                v hvb,
              lookupSyncer_eraseSyncer_ne hva]
          · rw [lookupSyncer_eraseSyncer_ne hvb,
              @lookupSyncer_insertSyncer_ne ms.inactiveSyncers
                { peerPub := a.peerPub, syncType := SyncType.PassiveSync }
                v hva]

theorem C5_rotate_witness :
    ∃ a b, a ∈ msOneEach.activeSyncers ∧
      rotOracleAll.stA a.peerPub = true ∧
      b ∈ msOneEach.inactiveSyncers ∧
      rotOracleAll.stB b.peerPub = true ∧
      (rotateActiveSyncerCandidate msOneEach
          rotOracleAll).activeSyncers.length =
        msOneEach.activeSyncers.length ∧
      a.peerPub ∉ keys (rotateActiveSyncerCandidate msOneEach
        rotOracleAll).activeSyncers ∧
      a.peerPub ∈ keys (rotateActiveSyncerCandidate msOneEach
        rotOracleAll).inactiveSyncers ∧
      b.peerPub ∈ keys (rotateActiveSyncerCandidate msOneEach
        rotOracleAll).activeSyncers ∧
      b.peerPub ∉ keys (rotateActiveSyncerCandidate msOneEach
        rotOracleAll).inactiveSyncers ∧
      (∀ v, v ≠ a.peerPub → v ≠ b.peerPub →
        lookupSyncer (rotateActiveSyncerCandidate msOneEach
            rotOracleAll).activeSyncers v =
            lookupSyncer msOneEach.activeSyncers v ∧
          lookupSyncer (rotateActiveSyncerCandidate msOneEach
              rotOracleAll).inactiveSyncers v =
            lookupSyncer msOneEach.inactiveSyncers v) :=
  (C5_rotate msOneEach rotOracleAll (by decide)).2.2.2
    (by decide) (by decide) rfl rfl

end SyncMgr
